import Mathlib

/-!
Shallow embedding of the event-planner RSVP application
(routes/rsvps.js, routes/auth.js, middleware/auth.js, database/schema.sql).

The three SQLite relations (`users`, `events`, `rsvps`) are modelled as
lists of records inside a `DB` state.  Each HTTP handler becomes a pure
function from a `DB` (plus the request and the current time) to a new
`DB` paired with a result value mirroring the handler's JSON response.
SQLite's `CURRENT_TIMESTAMP` and JavaScript's `new Date()` are passed in
as an explicit `now : Int`.  The bcrypt hash/compare library calls are
passed in as function parameters, since they are external to the repo.
-/

/-- RSVP status, schema: `CHECK (status IN ('attending','maybe','not_attending'))`. -/
inductive RStatus where
  | attending
  | maybe
  | notAttending
deriving DecidableEq, Repr

/-- Event lifecycle status, schema: `CHECK (status IN ('active','cancelled','completed'))`. -/
inductive EStatus where
  | active
  | cancelled
  | completed
deriving DecidableEq, Repr

/-- A row of the `users` table (columns relevant to the routes). -/
structure User where
  id : Nat
  username : String
  email : String
  passwordHash : String
  role : String
  firstName : String
  lastName : String
deriving DecidableEq, Repr

/-- A row of the `events` table (columns relevant to the routes).
`maxAttendees` is `INTEGER DEFAULT NULL`, hence an `Option Nat`. -/
structure Event where
  id : Nat
  title : String
  eventDate : Int
  location : String
  maxAttendees : Option Nat
  createdBy : Nat
  status : EStatus
deriving DecidableEq, Repr

/-- A row of the `rsvps` table. -/
structure RSVP where
  id : Nat
  userId : Nat
  eventId : Nat
  status : RStatus
  notes : Option String
  rsvpDate : Int
deriving DecidableEq, Repr

/-- The persistent store: the three relations plus the AUTOINCREMENT
counters for the two tables the routes insert into. -/
structure DB where
  users : List User
  events : List Event
  rsvps : List RSVP
  nextUserId : Nat
  nextRsvpId : Nat
deriving DecidableEq, Repr

/-- Body of `POST /rsvps` before validation: `{ eventId, status, notes }`. -/
structure RSVPRequest where
  eventId : Nat
  status : String
  notes : Option String
deriving DecidableEq, Repr

/-- Outcome of `POST /rsvps`, one constructor per distinct response of the
handler.  `saved` carries the re-read row and the joined event columns
(`e.title, e.event_date, e.location`). -/
inductive PostResult where
  | validationFailed
  | notFoundOrInactive
  | pastEvent
  | capacityExceeded
  | savedButFetchFailed
  | saved (r : RSVP) (title : String) (eventDate : Int) (location : String)
deriving DecidableEq, Repr

/-- The parse of the `status` field implied by
`body('status').isIn(['attending','maybe','not_attending'])`. -/
def parseStatus : String → Option RStatus
  | "attending" => some RStatus.attending
  | "maybe" => some RStatus.maybe
  | "not_attending" => some RStatus.notAttending
  | _ => none

/-- Validator `body('notes').optional().isLength({max:500})`. -/
def validNotes : Option String → Bool
  | none => true
  | some s => s.length ≤ 500

/-- JavaScript truthiness of `event.max_attendees`: `null` and `0` are falsy. -/
def isTruthy : Option Nat → Bool
  | none => false
  | some c => c ≠ 0

/-- Expression `notes || null`: an absent or empty-string note is stored as NULL. -/
def normNotes : Option String → Option String
  | none => none
  | some s => if s = "" then none else some s

/-- SQL predicate `user_id = ? AND event_id = ?` on an RSVP row. -/
def keyP (uid eid : Nat) (r : RSVP) : Bool :=
  decide (r.userId = uid ∧ r.eventId = eid)

/-- SQL predicate `event_id = ? AND status = "attending"` on an RSVP row. -/
def attP (eid : Nat) (r : RSVP) : Bool :=
  decide (r.eventId = eid ∧ r.status = RStatus.attending)

/-- Query `SELECT id, title, max_attendees, event_date FROM events WHERE id = ? AND status = "active"`. -/
def findActiveEvent (db : DB) (eid : Nat) : Option Event :=
  db.events.find? (fun e => decide (e.id = eid ∧ e.status = EStatus.active))

/-- Query `SELECT ... FROM rsvps WHERE user_id = ? AND event_id = ?`. -/
def findExistingRSVP (db : DB) (uid eid : Nat) : Option RSVP :=
  db.rsvps.find? (keyP uid eid)

/-- Query `SELECT COUNT(*) as count FROM rsvps WHERE event_id = ? AND status = "attending"`. -/
def attendingCount (db : DB) (eid : Nat) : Nat :=
  (db.rsvps.filter (attP eid)).length

/-- Effect of `UPDATE rsvps SET status = ?, notes = ?, rsvp_date = CURRENT_TIMESTAMP
WHERE user_id = ? AND event_id = ?` on a single row. -/
def updateRow (uid eid : Nat) (st : RStatus) (notes : Option String) (now : Int)
    (r : RSVP) : RSVP :=
  if keyP uid eid r then { r with status := st, notes := notes, rsvpDate := now }
  else r

/-- The `upsertRSVP` helper of `POST /rsvps`: look up the existing row for
(user, event); UPDATE it in place if present, otherwise INSERT a new row
(`rsvp_date` takes the schema default `CURRENT_TIMESTAMP`).  The second
component is the `getRSVPDetails` re-read of the persisted row. -/
def upsertRSVP (db : DB) (now : Int) (uid eid : Nat) (st : RStatus)
    (notes : Option String) : DB × Option RSVP :=
  match findExistingRSVP db uid eid with
  | some _ =>
      let db' : DB := { db with rsvps := db.rsvps.map (updateRow uid eid st notes now) }
      (db', findExistingRSVP db' uid eid)
  | none =>
      let newRow : RSVP :=
        { id := db.nextRsvpId, userId := uid, eventId := eid,
          status := st, notes := notes, rsvpDate := now }
      let db' : DB := { db with rsvps := db.rsvps ++ [newRow],
                                nextRsvpId := db.nextRsvpId + 1 }
      (db', findExistingRSVP db' uid eid)

/-- Tail of the handler after all checks pass: run `upsertRSVP`, then
answer with the re-read row joined with the event columns, or with the
`'RSVP saved but fetch failed'` error if the re-read returns nothing. -/
def finishUpsert (db : DB) (now : Int) (uid : Nat) (req : RSVPRequest)
    (st : RStatus) (ev : Event) : DB × PostResult :=
  match upsertRSVP db now uid req.eventId st (normNotes req.notes) with
  | (db', some r) => (db', PostResult.saved r ev.title ev.eventDate ev.location)
  | (db', none) => (db', PostResult.savedButFetchFailed)

/-- Handler `POST /rsvps` (routes/rsvps.js): validation, then the sequential
checks — active event exists, event date strictly in the future,
capacity when the desired status is `attending` and the event declares a
(truthy) cap — and finally the upsert. -/
def postRSVP (db : DB) (now : Int) (uid : Nat) (req : RSVPRequest) : DB × PostResult :=
  match parseStatus req.status with
  | none => (db, PostResult.validationFailed)
  | some st =>
    if req.eventId < 1 ∨ validNotes req.notes = false then
      (db, PostResult.validationFailed)
    else
      match findActiveEvent db req.eventId with
      | none => (db, PostResult.notFoundOrInactive)
      | some ev =>
        if ev.eventDate ≤ now then
          (db, PostResult.pastEvent)
        else if st = RStatus.attending ∧ isTruthy ev.maxAttendees then
          if ev.maxAttendees.getD 0 ≤ attendingCount db req.eventId then
            (db, PostResult.capacityExceeded)
          else
            finishUpsert db now uid req st ev
        else
          finishUpsert db now uid req st ev

/-- A serialized sequence of `POST /rsvps` requests: each entry is
(current time, acting user id, request body). -/
def runRequests (db : DB) (reqs : List (Int × Nat × RSVPRequest)) : DB :=
  reqs.foldl (fun d x => (postRSVP d x.1 x.2.1 x.2.2).1) db

/-- Outcome of `DELETE /rsvps/:eventId`. -/
inductive DeleteResult where
  | notFound
  | deleted
deriving DecidableEq, Repr

/-- Handler `DELETE /rsvps/:eventId`: run the DELETE, then report the not-found error
when `this.changes === 0` and success otherwise. -/
def deleteRSVP (db : DB) (uid eid : Nat) : DB × DeleteResult :=
  let remaining := db.rsvps.filter (fun r => !(keyP uid eid r))
  let changes := db.rsvps.length - remaining.length
  let db' : DB := { db with rsvps := remaining }
  if changes = 0 then (db', DeleteResult.notFound)
  else (db', DeleteResult.deleted)

/-- Body of `POST /auth/register`. -/
structure RegRequest where
  username : String
  email : String
  password : String
  firstName : String
  lastName : String
deriving DecidableEq, Repr

/-- Outcome of `POST /auth/register`. -/
inductive RegResult where
  | validationFailed
  | duplicate
  | success (u : User)
deriving DecidableEq, Repr

/-- Validator `body('username').matches(/^[a-zA-Z0-9_]+$/)`: letters, digits, underscore. -/
def usernameCharOk (c : Char) : Bool :=
  ('a' ≤ c ∧ c ≤ 'z') ∨ ('A' ≤ c ∧ c ≤ 'Z') ∨ ('0' ≤ c ∧ c ≤ '9') ∨ c = '_'

/-- Modelled from the spec: abstract stand-in for the validator library's
`isEmail` check (the library is not part of this repository); the theorems
below use it only as a hypothesis, discharged on concrete inputs. -/
def isEmailModel (s : String) : Bool :=
  s.data.contains '@'

/-- The `validateRegistration` middleware of routes/auth.js. -/
def validateRegistration (req : RegRequest) : Bool :=
  3 ≤ req.username.length && req.username.data.all usernameCharOk &&
  isEmailModel req.email && 6 ≤ req.password.length &&
  1 ≤ req.firstName.length && 1 ≤ req.lastName.length

/-- Query `SELECT id FROM users WHERE username = ? OR email = ?` (duplicate pre-read). -/
def dupP (username email : String) (u : User) : Bool :=
  decide (u.username = username ∨ u.email = email)

/-- Handler `POST /auth/register`: validation, bcrypt hash (passed in as `hash`),
duplicate pre-read, then INSERT with the schema default role `'user'`
followed by the re-read of the created row. -/
def register (hash : String → String) (db : DB) (req : RegRequest) : DB × RegResult :=
  if validateRegistration req = false then (db, RegResult.validationFailed)
  else
    match db.users.find? (dupP req.username req.email) with
    | some _ => (db, RegResult.duplicate)
    | none =>
        let newUser : User :=
          { id := db.nextUserId, username := req.username, email := req.email,
            passwordHash := hash req.password, role := "user",
            firstName := req.firstName, lastName := req.lastName }
        let db' : DB := { db with users := db.users ++ [newUser],
                                  nextUserId := db.nextUserId + 1 }
        (db', RegResult.success newUser)

/-- Body of `POST /auth/login`. -/
structure LoginRequest where
  username : String
  password : String
deriving DecidableEq, Repr

/-- Outcome of `POST /auth/login`; `failure` carries the HTTP status code
and the `error` message of the JSON body. -/
inductive LoginResult where
  | validationFailed
  | failure (status : Nat) (message : String)
  | success (u : User)
deriving DecidableEq, Repr

/-- The `validateLogin` middleware: both fields non-empty. -/
def validateLogin (req : LoginRequest) : Bool :=
  1 ≤ req.username.length && 1 ≤ req.password.length

/-- Query `SELECT * FROM users WHERE username = ? OR email = ?` with the submitted
username bound to both placeholders. -/
def loginMatchP (name : String) (u : User) : Bool :=
  decide (u.username = name ∨ u.email = name)

/-- Handler `POST /auth/login`: find the user by username or email, then compare
the password with bcrypt (passed in as `compare`).  An unknown identity
and a wrong password answer with the same 401 response. -/
def login (compare : String → String → Bool) (db : DB) (req : LoginRequest) : LoginResult :=
  if validateLogin req = false then LoginResult.validationFailed
  else
    match db.users.find? (loginMatchP req.username) with
    | none => LoginResult.failure 401 "Invalid username or password"
    | some user =>
        if compare req.password user.passwordHash = false then
          LoginResult.failure 401 "Invalid username or password"
        else
          LoginResult.success user

/-- The `UNIQUE(user_id, event_id)` constraint of the `rsvps` table:
no two rows share a (user, event) key. -/
def rsvpKeyUnique (l : List RSVP) : Prop :=
  l.Pairwise (fun a b => ¬(a.userId = b.userId ∧ a.eventId = b.eventId))

/-! ### Concrete instances used by the scenario theorems and witnesses -/

/-- Capacity-1 active future event used by the C6 scenario. -/
def scEvent : Event :=
  { id := 1, title := "T", eventDate := 100, location := "L",
    maxAttendees := some 1, createdBy := 1, status := EStatus.active }

/-- Initial store for the C6 scenario: one capacity-1 event, no RSVPs. -/
def scDB : DB :=
  { users := [], events := [scEvent], rsvps := [], nextUserId := 3, nextRsvpId := 1 }

/-- An `attending` request for event 1. -/
def scReqAtt : RSVPRequest := { eventId := 1, status := "attending", notes := none }

/-- A `maybe` request for event 1. -/
def scReqMaybe : RSVPRequest := { eventId := 1, status := "maybe", notes := none }

/-- Capacity-1 active future event used by the idempotency counterexample. -/
def cxEvent : Event :=
  { id := 1, title := "T", eventDate := 100, location := "L",
    maxAttendees := some 1, createdBy := 1, status := EStatus.active }

/-- Initial store for the idempotency counterexample. -/
def cxDB : DB :=
  { users := [], events := [cxEvent], rsvps := [], nextUserId := 2, nextRsvpId := 1 }

/-- The identical `attending` request submitted twice in the counterexample. -/
def cxReq : RSVPRequest := { eventId := 1, status := "attending", notes := none }

/-- Active future event without capacity, for witness stores. -/
def w3Event : Event := Event.mk 1 "T" 100 "L" none 1 EStatus.active

/-- Witness store with one active future event. -/
def w3DB : DB := DB.mk [] [w3Event] [] 1 1

/-- Cancelled event, for the not-found/inactive witness. -/
def w4Event : Event := Event.mk 1 "T" 100 "L" none 1 EStatus.cancelled

/-- Witness store whose only event with id 1 is cancelled. -/
def w4DB : DB := DB.mk [] [w4Event] [] 1 1

/-- Capacity-1 active future event, for the own-row-counted witness. -/
def w10Event : Event := Event.mk 1 "T" 100 "L" (some 1) 1 EStatus.active

/-- The requester's own stored attending row. -/
def w10Row : RSVP := RSVP.mk 1 1 1 RStatus.attending none 0

/-- Witness store at full capacity, where the only attending row belongs to
the requester. -/
def w10DB : DB := DB.mk [] [w10Event] [w10Row] 1 2

/-- A well-formed attending request for event 1, shared by witnesses. -/
def wReq : RSVPRequest := RSVPRequest.mk 1 "attending" none

/-- A stored RSVP row of user 1 for event 1, for the deletion witness. -/
def w5Row : RSVP := RSVP.mk 1 1 1 RStatus.maybe none 0

/-- Witness store holding exactly one RSVP row. -/
def w5DB : DB := DB.mk [] [w3Event] [w5Row] 1 2

/-- An existing registered user, for the duplicate-registration witness. -/
def w7User : User := User.mk 1 "alice" "alice@mail.test" "hashed" "user" "A" "B"

/-- Witness store holding one user. -/
def w7DB : DB := DB.mk [w7User] [] [] 2 1

/-- A registration request reusing the stored username with a fresh email. -/
def w7Req : RegRequest := RegRequest.mk "alice" "new@mail.test" "password" "A" "B"

/-- A stored user with a known password hash, for the login witness. -/
def w9User : User := User.mk 1 "bob" "bob@mail.test" "secret" "user" "B" "C"

/-- Witness store holding the known user. -/
def w9DB : DB := DB.mk [w9User] [] [] 2 1

/-- Witness store with no users at all. -/
def w9Empty : DB := DB.mk [] [] [] 1 1

/-- Login attempt with an unknown username. -/
def w9ReqUnknown : LoginRequest := LoginRequest.mk "ghost" "whatever"

/-- Login attempt with the known username but a wrong password. -/
def w9ReqWrongPw : LoginRequest := LoginRequest.mk "bob" "wrong"

/-- Plain-equality stand-in for bcrypt.compare in the login witness. -/
def w9Compare (p h : String) : Bool := decide (p = h)

/-- A well-formed `maybe` request for event 1, for the idempotency witness. -/
def wReqM : RSVPRequest := RSVPRequest.mk 1 "maybe" none

/-! ### Helper lemmas -/

theorem keyP_iff (uid eid : Nat) (r : RSVP) :
    keyP uid eid r = true ↔ r.userId = uid ∧ r.eventId = eid := by
  simp [keyP]

theorem attP_iff (eid : Nat) (r : RSVP) :
    attP eid r = true ↔ r.eventId = eid ∧ r.status = RStatus.attending := by
  simp [attP]

theorem updateRow_userId (uid eid : Nat) (st : RStatus) (n : Option String) (now : Int)
    (r : RSVP) : (updateRow uid eid st n now r).userId = r.userId := by
  unfold updateRow; split <;> rfl

theorem updateRow_eventId (uid eid : Nat) (st : RStatus) (n : Option String) (now : Int)
    (r : RSVP) : (updateRow uid eid st n now r).eventId = r.eventId := by
  unfold updateRow; split <;> rfl

theorem keyP_updateRow (uid eid uid' eid' : Nat) (st : RStatus) (n : Option String)
    (now : Int) (r : RSVP) :
    keyP uid' eid' (updateRow uid eid st n now r) = keyP uid' eid' r := by
  simp [keyP, updateRow_userId, updateRow_eventId]

theorem upsertRSVP_users (db : DB) (now : Int) (uid eid : Nat) (st : RStatus)
    (n : Option String) : (upsertRSVP db now uid eid st n).1.users = db.users := by
  unfold upsertRSVP; split <;> rfl

theorem upsertRSVP_events (db : DB) (now : Int) (uid eid : Nat) (st : RStatus)
    (n : Option String) : (upsertRSVP db now uid eid st n).1.events = db.events := by
  unfold upsertRSVP; split <;> rfl

theorem upsertRSVP_snd (db : DB) (now : Int) (uid eid : Nat) (st : RStatus)
    (n : Option String) :
    (upsertRSVP db now uid eid st n).2
      = findExistingRSVP (upsertRSVP db now uid eid st n).1 uid eid := by
  unfold upsertRSVP; split <;> rfl

theorem finishUpsert_fst (db : DB) (now : Int) (uid : Nat) (req : RSVPRequest)
    (st : RStatus) (ev : Event) :
    (finishUpsert db now uid req st ev).1
      = (upsertRSVP db now uid req.eventId st (normNotes req.notes)).1 := by
  unfold finishUpsert
  split <;> rename_i heq <;> rw [heq]

theorem postRSVP_users (db : DB) (now : Int) (uid : Nat) (req : RSVPRequest) :
    (postRSVP db now uid req).1.users = db.users := by
  unfold postRSVP
  split
  · rfl
  · split
    · rfl
    · split
      · rfl
      · split
        · rfl
        · split
          · split
            · rfl
            · rw [finishUpsert_fst, upsertRSVP_users]
          · rw [finishUpsert_fst, upsertRSVP_users]

theorem postRSVP_events (db : DB) (now : Int) (uid : Nat) (req : RSVPRequest) :
    (postRSVP db now uid req).1.events = db.events := by
  unfold postRSVP
  split
  · rfl
  · split
    · rfl
    · split
      · rfl
      · split
        · rfl
        · split
          · split
            · rfl
            · rw [finishUpsert_fst, upsertRSVP_events]
          · rw [finishUpsert_fst, upsertRSVP_events]

theorem key_filter_length_le_one (uid eid : Nat) (l : List RSVP)
    (huniq : rsvpKeyUnique l) : (l.filter (keyP uid eid)).length ≤ 1 := by
  induction l with
  | nil => simp
  | cons a t ih =>
    rw [rsvpKeyUnique, List.pairwise_cons] at huniq
    obtain ⟨ha, ht⟩ := huniq
    by_cases hk : keyP uid eid a = true
    · have htf : t.filter (keyP uid eid) = [] := by
        rw [List.filter_eq_nil_iff]
        intro b hb hkb
        have h1 := (keyP_iff uid eid a).mp hk
        have h2 := (keyP_iff uid eid b).mp hkb
        exact ha b hb ⟨h1.1.trans h2.1.symm, h1.2.trans h2.2.symm⟩
      rw [List.filter_cons_of_pos hk, htf]
      simp
    · rw [List.filter_cons_of_neg (by simpa using hk)]
      exact ih ht

theorem filter_map_length_le (f : RSVP → RSVP) (p : RSVP → Bool)
    (h : ∀ r, p (f r) = true → p r = true) (l : List RSVP) :
    ((l.map f).filter p).length ≤ (l.filter p).length := by
  induction l with
  | nil => simp
  | cons a t ih =>
    rw [List.map_cons]
    by_cases hfa : p (f a) = true
    · rw [List.filter_cons_of_pos hfa, List.filter_cons_of_pos (h a hfa)]
      simpa using ih
    · rw [List.filter_cons_of_neg (by simpa using hfa)]
      by_cases hpa : p a = true
      · rw [List.filter_cons_of_pos hpa]
        exact Nat.le_succ_of_le ih
      · rw [List.filter_cons_of_neg (by simpa using hpa)]
        exact ih

theorem filter_map_update_le_add (uid eid : Nat) (st : RStatus) (n : Option String)
    (now : Int) (eid' : Nat) (l : List RSVP) :
    ((l.map (updateRow uid eid st n now)).filter (attP eid')).length ≤
      (l.filter (attP eid')).length + (l.filter (keyP uid eid)).length := by
  induction l with
  | nil => simp
  | cons a t ih =>
    by_cases hk : keyP uid eid a = true
    · rw [List.map_cons, List.filter_cons, List.filter_cons, List.filter_cons_of_pos hk]
      split_ifs <;> (try simp only [List.length_cons]) <;> omega
    · have hfa : updateRow uid eid st n now a = a := by
        unfold updateRow
        rw [if_neg (by simpa using hk)]
      rw [List.map_cons, hfa, List.filter_cons, List.filter_cons,
        List.filter_cons_of_neg (by simpa using hk)]
      split_ifs <;> (try simp only [List.length_cons]) <;> omega

theorem attP_updateRow_of_ne (uid eid : Nat) (st : RStatus) (n : Option String)
    (now : Int) (eid' : Nat) (r : RSVP)
    (h : st ≠ RStatus.attending ∨ eid ≠ eid') :
    attP eid' (updateRow uid eid st n now r) = true → attP eid' r = true := by
  unfold updateRow
  by_cases hk : keyP uid eid r = true
  · rw [if_pos hk]
    intro hfa
    have h2 := (attP_iff eid' _).mp hfa
    have h1 := (keyP_iff uid eid r).mp hk
    simp only at h2
    rcases h with h | h
    · exact absurd h2.2 h
    · exact absurd (h1.2.symm.trans h2.1) h
  · rw [if_neg (by simpa using hk)]
    exact id

theorem rsvpKeyUnique_map_update (uid eid : Nat) (st : RStatus) (n : Option String)
    (now : Int) (l : List RSVP) (h : rsvpKeyUnique l) :
    rsvpKeyUnique (l.map (updateRow uid eid st n now)) := by
  unfold rsvpKeyUnique at *
  refine List.Pairwise.map _ ?_ h
  intro a b hab
  simpa [updateRow_userId, updateRow_eventId] using hab

theorem rsvpKeyUnique_append_new (l : List RSVP) (nr : RSVP)
    (h : rsvpKeyUnique l) (hnone : l.find? (keyP nr.userId nr.eventId) = none) :
    rsvpKeyUnique (l ++ [nr]) := by
  unfold rsvpKeyUnique at *
  rw [List.pairwise_append]
  refine ⟨h, by simp, ?_⟩
  intro a ha b hb
  simp only [List.mem_singleton] at hb
  subst hb
  have hne := List.find?_eq_none.mp hnone a ha
  exact fun hc => hne ((keyP_iff _ _ _).mpr hc)

theorem rsvpKeyUnique_upsert (db : DB) (now : Int) (uid eid : Nat) (st : RStatus)
    (n : Option String) (h : rsvpKeyUnique db.rsvps) :
    rsvpKeyUnique (upsertRSVP db now uid eid st n).1.rsvps := by
  unfold upsertRSVP
  split
  · exact rsvpKeyUnique_map_update uid eid st n now db.rsvps h
  · rename_i heq
    exact rsvpKeyUnique_append_new db.rsvps _ h (by simpa [findExistingRSVP] using heq)

theorem attendingCount_upsert_le_succ (db : DB) (now : Int) (uid eid' : Nat)
    (st : RStatus) (n : Option String) (eid : Nat) (h : rsvpKeyUnique db.rsvps) :
    attendingCount (upsertRSVP db now uid eid' st n).1 eid
      ≤ attendingCount db eid + 1 := by
  unfold upsertRSVP attendingCount
  split
  · have h1 := filter_map_update_le_add uid eid' st n now eid db.rsvps
    have h2 := key_filter_length_le_one uid eid' db.rsvps h
    simpa using Nat.le_trans h1 (by omega)
  · rw [List.filter_append]
    simp only [List.length_append]
    have : (List.filter (attP eid) [RSVP.mk db.nextRsvpId uid eid' st n now]).length ≤ 1 := by
      simp [List.filter_cons]
      split_ifs <;> simp
    omega

theorem attendingCount_upsert_le_of_ne (db : DB) (now : Int) (uid eid' : Nat)
    (st : RStatus) (n : Option String) (eid : Nat)
    (h : st ≠ RStatus.attending ∨ eid' ≠ eid) :
    attendingCount (upsertRSVP db now uid eid' st n).1 eid ≤ attendingCount db eid := by
  unfold upsertRSVP attendingCount
  split
  · exact filter_map_length_le _ _
      (fun r => attP_updateRow_of_ne uid eid' st n now eid r h) db.rsvps
  · rw [List.filter_append]
    have : List.filter (attP eid) [RSVP.mk db.nextRsvpId uid eid' st n now] = [] := by
      rw [List.filter_eq_nil_iff]
      intro b hb
      simp only [List.mem_singleton] at hb
      subst hb
      intro hatt
      have := (attP_iff eid _).mp hatt
      simp only at this
      rcases h with h | h
      · exact h this.2
      · exact h this.1
    simp [this]

theorem rsvpKeyUnique_postRSVP (db : DB) (now : Int) (uid : Nat) (req : RSVPRequest)
    (h : rsvpKeyUnique db.rsvps) :
    rsvpKeyUnique (postRSVP db now uid req).1.rsvps := by
  unfold postRSVP
  split
  · exact h
  · split
    · exact h
    · split
      · exact h
      · split
        · exact h
        · split
          · split
            · exact h
            · rw [finishUpsert_fst]
              exact rsvpKeyUnique_upsert _ _ _ _ _ _ h
          · rw [finishUpsert_fst]
            exact rsvpKeyUnique_upsert _ _ _ _ _ _ h

theorem attendingCount_post_le (db : DB) (now : Int) (uid : Nat) (req : RSVPRequest)
    (eid C : Nat)
    (huniq : rsvpKeyUnique db.rsvps)
    (hev : ∀ e ∈ db.events, e.id = eid → e.status = EStatus.active →
      e.maxAttendees = some C)
    (hC : 1 ≤ C)
    (hle : attendingCount db eid ≤ C) :
    attendingCount (postRSVP db now uid req).1 eid ≤ C := by
  unfold postRSVP
  split
  · exact hle
  · rename_i st hst
    split
    · exact hle
    · rename_i hval
      split
      · exact hle
      · rename_i ev hevq
        split
        · exact hle
        · rename_i hpast
          split
          · rename_i hatt
            split
            · exact hle
            · rename_i hcap
              rw [finishUpsert_fst]
              by_cases heid : req.eventId = eid
              · subst heid
                unfold findActiveEvent at hevq
                have hmem := List.mem_of_find?_eq_some hevq
                have hprop : ev.id = req.eventId ∧ ev.status = EStatus.active := by
                  simpa using List.find?_some hevq
                have hevC := hev ev hmem hprop.1 hprop.2
                have hgetD : ev.maxAttendees.getD 0 = C := by rw [hevC]; rfl
                rw [hgetD] at hcap
                have hlt : attendingCount db req.eventId < C := Nat.lt_of_not_le hcap
                have := attendingCount_upsert_le_succ db now uid req.eventId st
                  (normNotes req.notes) req.eventId huniq
                omega
              · exact le_trans (attendingCount_upsert_le_of_ne db now uid req.eventId st
                  (normNotes req.notes) eid (Or.inr heid)) hle
          · rename_i hnatt
            rw [finishUpsert_fst]
            by_cases heid : req.eventId = eid
            · subst heid
              unfold findActiveEvent at hevq
              have hmem := List.mem_of_find?_eq_some hevq
              have hprop : ev.id = req.eventId ∧ ev.status = EStatus.active := by
                simpa using List.find?_some hevq
              have hevC := hev ev hmem hprop.1 hprop.2
              have htr : isTruthy ev.maxAttendees = true := by
                rw [hevC]
                simp [isTruthy]
                omega
              have hstne : st ≠ RStatus.attending := fun hsa => hnatt ⟨hsa, htr⟩
              exact le_trans (attendingCount_upsert_le_of_ne db now uid req.eventId st
                (normNotes req.notes) req.eventId (Or.inl hstne)) hle
            · exact le_trans (attendingCount_upsert_le_of_ne db now uid req.eventId st
                (normNotes req.notes) eid (Or.inr heid)) hle

/-- C1: for every event with a finite capacity C (every active stored event
row with the request's id declares `max_attendees = C ≥ 1`), after any
serialized sequence of well-formed RSVP requests, the number of stored
RSVP rows with status `attending` for that event never exceeds C, provided
the store starts within capacity and satisfies the `UNIQUE(user_id,
event_id)` constraint. -/
theorem attending_capacity_invariant (db : DB) (reqs : List (Int × Nat × RSVPRequest))
    (eid C : Nat)
    (huniq : rsvpKeyUnique db.rsvps)
    (hev : ∀ e ∈ db.events, e.id = eid → e.status = EStatus.active →
      e.maxAttendees = some C)
    (hC : 1 ≤ C)
    (hinit : attendingCount db eid ≤ C) :
    attendingCount (runRequests db reqs) eid ≤ C := by
  induction reqs generalizing db with
  | nil => exact hinit
  | cons x xs ih =>
    rw [runRequests, List.foldl_cons]
    exact ih (postRSVP db x.1 x.2.1 x.2.2).1
      (rsvpKeyUnique_postRSVP db x.1 x.2.1 x.2.2 huniq)
      (by rw [postRSVP_events]; exact hev)
      (attendingCount_post_le db x.1 x.2.1 x.2.2 eid C huniq hev hC hinit)

/-- Witness for C1 at a concrete capacity-1 event and two attending requests. -/
theorem attending_capacity_invariant_witness :
    attendingCount (runRequests scDB [((1 : Int), 1, scReqAtt), ((2 : Int), 2, scReqAtt)]) 1 ≤ 1 :=
  attending_capacity_invariant scDB [((1 : Int), 1, scReqAtt), ((2 : Int), 2, scReqAtt)] 1 1
    (by simp [rsvpKeyUnique, scDB]) (by decide) (by decide) (by decide)

/-- C6: capacity gates only the `attending` status.  With `maxAttendees = 1`:
user A RSVPs attending and succeeds; user B's attending request fails with
capacity-exceeded; A's `maybe` request overwrites A's row in place, the
stored attending count drops to 0, and B's next attending request succeeds. -/
theorem capacity_gates_only_attending_scenario :
    (postRSVP scDB 1 1 scReqAtt).2
        = PostResult.saved (RSVP.mk 1 1 1 RStatus.attending none 1) "T" 100 "L" ∧
    (postRSVP (postRSVP scDB 1 1 scReqAtt).1 2 2 scReqAtt).2
        = PostResult.capacityExceeded ∧
    (postRSVP (postRSVP scDB 1 1 scReqAtt).1 3 1 scReqMaybe).2
        = PostResult.saved (RSVP.mk 1 1 1 RStatus.maybe none 3) "T" 100 "L" ∧
    attendingCount (postRSVP (postRSVP scDB 1 1 scReqAtt).1 3 1 scReqMaybe).1 1 = 0 ∧
    (postRSVP (postRSVP (postRSVP scDB 1 1 scReqAtt).1 3 1 scReqMaybe).1 4 2 scReqAtt).2
        = PostResult.saved (RSVP.mk 2 2 1 RStatus.attending none 4) "T" 100 "L" :=
  ⟨rfl, rfl, rfl, rfl, rfl⟩

/-- Counterexample to C2 as stated: for the capacity-1 event of `cxDB`, the
identical attending request from the same identity succeeds the first time
and is rejected with capacity-exceeded the second time, so the second of
two identical well-formed requests does not always succeed. -/
theorem rsvp_upsert_idempotent_cx :
    (postRSVP cxDB 1 1 cxReq).2
        = PostResult.saved (RSVP.mk 1 1 1 RStatus.attending none 1) "T" 100 "L" ∧
    (postRSVP (postRSVP cxDB 1 1 cxReq).1 2 1 cxReq).2 = PostResult.capacityExceeded :=
  ⟨rfl, rfl⟩

/-- C3: well-formed request, active event exists, but its date is not
strictly in the future: the request fails with the past-event failure and
the store is unchanged, for any status, capacity and existing RSVPs. -/
theorem rsvp_past_event_rejected (db : DB) (now : Int) (uid : Nat) (req : RSVPRequest)
    (st : RStatus) (ev : Event)
    (hst : parseStatus req.status = some st)
    (hid : 1 ≤ req.eventId) (hnotes : validNotes req.notes = true)
    (hev : findActiveEvent db req.eventId = some ev)
    (hpast : ev.eventDate ≤ now) :
    postRSVP db now uid req = (db, PostResult.pastEvent) := by
  have hcond : ¬(req.eventId < 1 ∨ validNotes req.notes = false) := by
    rw [hnotes]
    simp
    omega
  unfold postRSVP
  rw [hst]
  simp only []
  rw [if_neg hcond, hev]
  simp only []
  rw [if_pos hpast]

/-- C4: well-formed request whose event id matches no stored event row with
lifecycle status `active`: the request fails with the not-found/inactive
failure and the store is unchanged, before any past-event or capacity
consideration. -/
theorem rsvp_missing_or_inactive_rejected (db : DB) (now : Int) (uid : Nat)
    (req : RSVPRequest) (st : RStatus)
    (hst : parseStatus req.status = some st)
    (hid : 1 ≤ req.eventId) (hnotes : validNotes req.notes = true)
    (hmiss : ∀ e ∈ db.events, e.id = req.eventId → e.status ≠ EStatus.active) :
    postRSVP db now uid req = (db, PostResult.notFoundOrInactive) := by
  have hfind : findActiveEvent db req.eventId = none := by
    unfold findActiveEvent
    rw [List.find?_eq_none]
    intro e he
    simp only [decide_eq_true_eq]
    intro hc
    exact hmiss e he hc.1 hc.2
  have hcond : ¬(req.eventId < 1 ∨ validNotes req.notes = false) := by
    rw [hnotes]
    simp
    omega
  unfold postRSVP
  rw [hst]
  simp only []
  rw [if_neg hcond, hfind]

/-- C10: the capacity count includes the requester's own attending row.
When the event is at (or above) its declared capacity, a user who already
has a stored attending RSVP and re-submits an identical attending request
is rejected with the capacity-exceeded failure; no overwrite happens. -/
theorem capacity_counts_own_row (db : DB) (now : Int) (uid : Nat) (req : RSVPRequest)
    (ev : Event) (C : Nat) (r : RSVP)
    (hstatus : req.status = "attending")
    (hid : 1 ≤ req.eventId) (hnotes : validNotes req.notes = true)
    (hev : findActiveEvent db req.eventId = some ev)
    (hfut : now < ev.eventDate)
    (hcap : ev.maxAttendees = some C) (hC : 1 ≤ C)
    (hfull : C ≤ attendingCount db req.eventId)
    (_hmem : r ∈ db.rsvps) (_hkey : keyP uid req.eventId r = true)
    (_hatt : r.status = RStatus.attending) :
    postRSVP db now uid req = (db, PostResult.capacityExceeded) := by
  have hst : parseStatus req.status = some RStatus.attending := by
    rw [hstatus]
    rfl
  have hcond : ¬(req.eventId < 1 ∨ validNotes req.notes = false) := by
    rw [hnotes]
    simp
    omega
  have htr : isTruthy ev.maxAttendees = true := by
    rw [hcap]
    simp [isTruthy]
    omega
  unfold postRSVP
  rw [hst]
  simp only []
  rw [if_neg hcond, hev]
  simp only []
  rw [if_neg (by omega : ¬ ev.eventDate ≤ now),
    if_pos (show True ∧ isTruthy ev.maxAttendees = true from ⟨trivial, htr⟩),
    if_pos (by rw [hcap]; exact hfull)]

/-- Witness for C3: RSVP to an event dated exactly now is rejected as past. -/
theorem rsvp_past_event_rejected_witness :
    postRSVP w3DB 100 1 wReq = (w3DB, PostResult.pastEvent) :=
  rsvp_past_event_rejected w3DB 100 1 wReq RStatus.attending w3Event rfl (by decide)
    rfl rfl (by decide)

/-- Witness for C4: RSVP to a cancelled event is rejected as not found/inactive. -/
theorem rsvp_missing_or_inactive_rejected_witness :
    postRSVP w4DB 0 1 wReq = (w4DB, PostResult.notFoundOrInactive) :=
  rsvp_missing_or_inactive_rejected w4DB 0 1 wReq RStatus.attending rfl (by decide)
    rfl (by decide)

/-- Witness for C10: the requester holding the only attending row of a full
capacity-1 event is rejected on an identical re-submission. -/
theorem capacity_counts_own_row_witness :
    postRSVP w10DB 0 1 wReq = (w10DB, PostResult.capacityExceeded) :=
  capacity_counts_own_row w10DB 0 1 wReq w10Event 1 w10Row rfl (by decide) rfl rfl
    (by decide) rfl (by decide) (by decide) (by simp [w10DB]) (by decide) rfl

theorem keyP_comp_updateRow (uid eid : Nat) (st : RStatus) (n : Option String)
    (now : Int) :
    (keyP uid eid) ∘ (updateRow uid eid st n now) = keyP uid eid :=
  funext fun r => keyP_updateRow uid eid uid eid st n now r

theorem upsertRSVP_of_found (db : DB) (now : Int) (uid eid : Nat) (st : RStatus)
    (n : Option String) (r0 : RSVP) (hf : findExistingRSVP db uid eid = some r0) :
    upsertRSVP db now uid eid st n =
      ({ db with rsvps := db.rsvps.map (updateRow uid eid st n now) },
       some (updateRow uid eid st n now r0)) := by
  unfold upsertRSVP
  rw [hf]
  simp only []
  have hsnd : findExistingRSVP
      { db with rsvps := db.rsvps.map (updateRow uid eid st n now) } uid eid
      = some (updateRow uid eid st n now r0) := by
    unfold findExistingRSVP at hf ⊢
    simp only []
    rw [List.find?_map, keyP_comp_updateRow, hf]
    rfl
  rw [hsnd]

theorem upsertRSVP_of_absent (db : DB) (now : Int) (uid eid : Nat) (st : RStatus)
    (n : Option String) (hf : findExistingRSVP db uid eid = none) :
    upsertRSVP db now uid eid st n =
      ({ db with rsvps := db.rsvps ++ [RSVP.mk db.nextRsvpId uid eid st n now],
                 nextRsvpId := db.nextRsvpId + 1 },
       some (RSVP.mk db.nextRsvpId uid eid st n now)) := by
  unfold upsertRSVP
  rw [hf]
  simp only []
  have hsnd : findExistingRSVP
      { db with rsvps := db.rsvps ++ [RSVP.mk db.nextRsvpId uid eid st n now],
                nextRsvpId := db.nextRsvpId + 1 } uid eid
      = some (RSVP.mk db.nextRsvpId uid eid st n now) := by
    unfold findExistingRSVP at hf ⊢
    simp only []
    rw [List.find?_append, hf]
    rw [List.find?_cons_of_pos _ (by simp [keyP] :
      keyP uid eid (RSVP.mk db.nextRsvpId uid eid st n now) = true)]
    rfl
  rw [hsnd]

theorem map_update_eq_set (uid eid : Nat) (st : RStatus) (n : Option String) (now : Int)
    (l : List RSVP) (huniq : rsvpKeyUnique l) (r0 : RSVP)
    (hf : l.find? (keyP uid eid) = some r0) :
    ∃ i r', i < l.length ∧ l.map (updateRow uid eid st n now) = l.set i r' := by
  induction l with
  | nil => cases hf
  | cons a t ih =>
    rw [rsvpKeyUnique, List.pairwise_cons] at huniq
    by_cases hk : keyP uid eid a = true
    · have htail : ∀ b ∈ t, keyP uid eid b = false := by
        intro b hb
        by_contra hb'
        rw [Bool.not_eq_false] at hb'
        have h1 := (keyP_iff uid eid a).mp hk
        have h2 := (keyP_iff uid eid b).mp hb'
        exact huniq.1 b hb ⟨h1.1.trans h2.1.symm, h1.2.trans h2.2.symm⟩
      have hmapt : t.map (updateRow uid eid st n now) = t := by
        have : t.map (updateRow uid eid st n now) = t.map id :=
          List.map_congr_left (fun b hb => by
            unfold updateRow
            rw [if_neg (by simp [htail b hb])]
            rfl)
        rw [this, List.map_id]
      refine ⟨0, updateRow uid eid st n now a, by simp, ?_⟩
      rw [List.map_cons, hmapt]
      rfl
    · have hfa : updateRow uid eid st n now a = a := by
        unfold updateRow
        rw [if_neg hk]
      have hft : t.find? (keyP uid eid) = some r0 := by
        rw [List.find?_cons_of_neg t hk] at hf
        exact hf
      obtain ⟨i, r', hi, heq⟩ := ih (by exact huniq.2) hft
      refine ⟨i + 1, r', by simpa using Nat.succ_lt_succ hi, ?_⟩
      rw [List.map_cons, hfa, heq]
      rfl

/-- C5: `DELETE /rsvps/:eventId` reports success exactly when a row for
(identity, event) existed; it removes exactly the rows with that key; and
on a store holding no such row it answers the not-found failure with the
store unchanged, so a no-op is distinguishable from a real deletion. -/
theorem delete_rsvp_spec (db : DB) (uid eid : Nat) :
    ((deleteRSVP db uid eid).2 = DeleteResult.deleted ↔
      ∃ r ∈ db.rsvps, keyP uid eid r = true) ∧
    (deleteRSVP db uid eid).1.rsvps = db.rsvps.filter (fun r => !(keyP uid eid r)) ∧
    ((∀ r ∈ db.rsvps, keyP uid eid r = false) →
      deleteRSVP db uid eid = (db, DeleteResult.notFound)) := by
  have hsub := List.length_filter_le (fun r => !(keyP uid eid r)) db.rsvps
  have hiff : (db.rsvps.filter (fun r => !(keyP uid eid r))).length = db.rsvps.length ↔
      ∀ r ∈ db.rsvps, keyP uid eid r = false := by
    constructor
    · intro h r hr
      have := List.filter_eq_self.mp
        (List.Sublist.eq_of_length (List.filter_sublist _) h) r hr
      simpa using this
    · intro h
      rw [List.filter_eq_self.mpr (fun r hr => by simp [h r hr])]
  have hfe_of : (∀ r ∈ db.rsvps, keyP uid eid r = false) →
      db.rsvps.filter (fun r => !(keyP uid eid r)) = db.rsvps :=
    fun h => List.filter_eq_self.mpr (fun r hr => by simp [h r hr])
  simp only [deleteRSVP]
  split
  · rename_i hzero
    have hall : ∀ r ∈ db.rsvps, keyP uid eid r = false := hiff.mp (by omega)
    refine ⟨?_, rfl, ?_⟩
    · constructor
      · intro h
        exact absurd h (by simp)
      · rintro ⟨r, hr, hk⟩
        rw [hall r hr] at hk
        cases hk
    · intro _
      rw [hfe_of hall]
  · rename_i hnz
    have hne : ¬ (∀ r ∈ db.rsvps, keyP uid eid r = false) := by
      intro hall
      exact hnz (by have := hiff.mpr hall; omega)
    refine ⟨?_, rfl, ?_⟩
    · constructor
      · intro _
        by_contra hno
        push_neg at hno
        exact hne (fun r hr => by
          have := hno r hr
          simpa using this)
      · intro _
        rfl
    · intro hall
      exact absurd hall hne

/-- Witness for C5: deleting the only stored row reports success, and
deleting from a store without the row reports not-found. -/
theorem delete_rsvp_spec_witness :
    (deleteRSVP w5DB 1 1).2 = DeleteResult.deleted ∧
    deleteRSVP w9Empty 1 1 = (w9Empty, DeleteResult.notFound) :=
  ⟨(delete_rsvp_spec w5DB 1 1).1.mpr ⟨w5Row, by simp [w5DB], by decide⟩,
   (delete_rsvp_spec w9Empty 1 1).2.2 (by intro r hr; simp [w9Empty] at hr)⟩

/-- C7: a registration request whose username or email matches an existing
user fails with the duplicate failure and the store is unchanged (no user
row is created). -/
theorem register_duplicate_rejected (hash : String → String) (db : DB) (req : RegRequest)
    (hv : validateRegistration req = true)
    (hdup : ∃ u ∈ db.users, u.username = req.username ∨ u.email = req.email) :
    register hash db req = (db, RegResult.duplicate) := by
  have hfind : (db.users.find? (dupP req.username req.email)).isSome := by
    rw [List.find?_isSome]
    obtain ⟨u, hu, hor⟩ := hdup
    exact ⟨u, hu, by simpa [dupP] using hor⟩
  obtain ⟨u, hu⟩ := Option.isSome_iff_exists.mp hfind
  unfold register
  rw [hv, if_neg (by simp), hu]

/-- Witness for C7: re-registering the stored username is rejected as a
duplicate and leaves the store unchanged. -/
theorem register_duplicate_rejected_witness :
    register (fun s => s) w7DB w7Req = (w7DB, RegResult.duplicate) :=
  register_duplicate_rejected (fun s => s) w7DB w7Req (by decide)
    ⟨w7User, by simp [w7DB], Or.inl rfl⟩

/-- C9: login with an unknown username/email and login with a known
username but wrong password produce the same failure response — the same
401 status and the same message — for any store contents and any compare
function. -/
theorem login_indistinguishable (compare : String → String → Bool) (db1 db2 : DB)
    (req1 req2 : LoginRequest) (u : User)
    (hv1 : validateLogin req1 = true) (hv2 : validateLogin req2 = true)
    (h1 : db1.users.find? (loginMatchP req1.username) = none)
    (h2 : db2.users.find? (loginMatchP req2.username) = some u)
    (hpw : compare req2.password u.passwordHash = false) :
    login compare db1 req1 = login compare db2 req2 ∧
    login compare db1 req1 = LoginResult.failure 401 "Invalid username or password" := by
  have e1 : login compare db1 req1
      = LoginResult.failure 401 "Invalid username or password" := by
    unfold login
    rw [hv1, if_neg (by simp), h1]
  have e2 : login compare db2 req2
      = LoginResult.failure 401 "Invalid username or password" := by
    unfold login
    rw [hv2, if_neg (by simp), h2]
    simp only []
    rw [hpw, if_pos rfl]
  exact ⟨e1.trans e2.symm, e1⟩

/-- Witness for C9 at a concrete store, user and compare function. -/
theorem login_indistinguishable_witness :
    login w9Compare w9Empty w9ReqUnknown = login w9Compare w9DB w9ReqWrongPw ∧
    login w9Compare w9Empty w9ReqUnknown
      = LoginResult.failure 401 "Invalid username or password" :=
  login_indistinguishable w9Compare w9Empty w9DB w9ReqUnknown w9ReqWrongPw w9User
    (by decide) (by decide) rfl rfl (by decide)

theorem filter_eq_singleton_of_uniq (uid eid : Nat) (l : List RSVP) (r0 : RSVP)
    (huniq : rsvpKeyUnique l) (hf : l.find? (keyP uid eid) = some r0) :
    l.filter (keyP uid eid) = [r0] := by
  have hmem : r0 ∈ l.filter (keyP uid eid) := by
    rw [List.mem_filter]
    exact ⟨List.mem_of_find?_eq_some hf, List.find?_some hf⟩
  have hlen := key_filter_length_le_one uid eid l huniq
  match hfp : l.filter (keyP uid eid) with
  | [] =>
    rw [hfp] at hmem
    cases hmem
  | [b] =>
    rw [hfp] at hmem
    simp at hmem
    simp [hmem]
  | b :: c :: tl =>
    rw [hfp] at hlen
    simp at hlen

theorem finishUpsert_char (db : DB) (now : Int) (uid : Nat) (req : RSVPRequest)
    (st : RStatus) (ev : Event) (huniq : rsvpKeyUnique db.rsvps) :
    (∃ r, (finishUpsert db now uid req st ev).2
        = PostResult.saved r ev.title ev.eventDate ev.location) ∧
    ((∃ r, (finishUpsert db now uid req st ev).1.rsvps = db.rsvps ++ [r]) ∨
      (∃ i r, i < db.rsvps.length ∧
        (finishUpsert db now uid req st ev).1.rsvps = db.rsvps.set i r)) := by
  cases hf : findExistingRSVP db uid req.eventId with
  | some r0 =>
    unfold finishUpsert
    rw [upsertRSVP_of_found db now uid req.eventId st (normNotes req.notes) r0 hf]
    constructor
    · exact ⟨updateRow uid req.eventId st (normNotes req.notes) now r0, rfl⟩
    · exact Or.inr (map_update_eq_set uid req.eventId st (normNotes req.notes) now
        db.rsvps huniq r0 hf)
  | none =>
    unfold finishUpsert
    rw [upsertRSVP_of_absent db now uid req.eventId st (normNotes req.notes) hf]
    exact ⟨⟨_, rfl⟩, Or.inl ⟨_, rfl⟩⟩

theorem postRSVP_cases (db : DB) (now : Int) (uid : Nat) (req : RSVPRequest)
    (huniq : rsvpKeyUnique db.rsvps) :
    ((postRSVP db now uid req).1 = db ∧
      ((postRSVP db now uid req).2 = PostResult.validationFailed ∨
       (postRSVP db now uid req).2 = PostResult.notFoundOrInactive ∨
       (postRSVP db now uid req).2 = PostResult.pastEvent ∨
       (postRSVP db now uid req).2 = PostResult.capacityExceeded)) ∨
    ((∃ r t d loc, (postRSVP db now uid req).2 = PostResult.saved r t d loc) ∧
      ((∃ r, (postRSVP db now uid req).1.rsvps = db.rsvps ++ [r]) ∨
       (∃ i r, i < db.rsvps.length ∧
         (postRSVP db now uid req).1.rsvps = db.rsvps.set i r))) := by
  unfold postRSVP
  split
  · exact Or.inl ⟨rfl, Or.inl rfl⟩
  · split
    · exact Or.inl ⟨rfl, Or.inl rfl⟩
    · split
      · exact Or.inl ⟨rfl, Or.inr (Or.inl rfl)⟩
      · rename_i ev hevq
        split
        · exact Or.inl ⟨rfl, Or.inr (Or.inr (Or.inl rfl))⟩
        · split
          · split
            · exact Or.inl ⟨rfl, Or.inr (Or.inr (Or.inr rfl))⟩
            · obtain ⟨⟨r, hr⟩, hstate⟩ := finishUpsert_char db now uid req _ ev huniq
              exact Or.inr ⟨⟨r, ev.title, ev.eventDate, ev.location, hr⟩, hstate⟩
          · obtain ⟨⟨r, hr⟩, hstate⟩ := finishUpsert_char db now uid req _ ev huniq
            exact Or.inr ⟨⟨r, ev.title, ev.eventDate, ev.location, hr⟩, hstate⟩

/-- C8: the RSVP upsert only ever touches the RSVP relation — users and
events are unchanged; a successful request performs exactly one insert
(one appended row) or exactly one update (one row replaced in place); a
failed request leaves the store completely unchanged; and the
saved-but-fetch-failed response never occurs in the model. -/
theorem rsvp_upsert_frame (db : DB) (now : Int) (uid : Nat) (req : RSVPRequest)
    (huniq : rsvpKeyUnique db.rsvps) :
    (postRSVP db now uid req).1.users = db.users ∧
    (postRSVP db now uid req).1.events = db.events ∧
    (postRSVP db now uid req).2 ≠ PostResult.savedButFetchFailed ∧
    ((∃ r t d loc, (postRSVP db now uid req).2 = PostResult.saved r t d loc) →
      (∃ r, (postRSVP db now uid req).1.rsvps = db.rsvps ++ [r]) ∨
      (∃ i r, i < db.rsvps.length ∧
        (postRSVP db now uid req).1.rsvps = db.rsvps.set i r)) ∧
    ((∀ r t d loc, (postRSVP db now uid req).2 ≠ PostResult.saved r t d loc) →
      (postRSVP db now uid req).1 = db) := by
  refine ⟨postRSVP_users db now uid req, postRSVP_events db now uid req, ?_, ?_, ?_⟩
  · rcases postRSVP_cases db now uid req huniq with ⟨_, hres⟩ | ⟨⟨r, t, d, loc, hres⟩, _⟩
    · rcases hres with h | h | h | h <;> rw [h] <;> simp
    · rw [hres]
      simp
  · intro hsaved
    rcases postRSVP_cases db now uid req huniq with ⟨_, hres⟩ | ⟨_, hstate⟩
    · obtain ⟨r, t, d, loc, heq⟩ := hsaved
      rcases hres with h | h | h | h <;> rw [h] at heq <;> cases heq
    · exact hstate
  · intro hnot
    rcases postRSVP_cases db now uid req huniq with ⟨hdb, _⟩ | ⟨⟨r, t, d, loc, heq⟩, _⟩
    · exact hdb
    · exact absurd heq (hnot r t d loc)

/-- Witness for C8 at a concrete store and request. -/
theorem rsvp_upsert_frame_witness :
    (postRSVP scDB 1 1 scReqAtt).1.users = scDB.users ∧
    (postRSVP scDB 1 1 scReqAtt).1.events = scDB.events :=
  ⟨(rsvp_upsert_frame scDB 1 1 scReqAtt (by simp [rsvpKeyUnique, scDB])).1,
   (rsvp_upsert_frame scDB 1 1 scReqAtt (by simp [rsvpKeyUnique, scDB])).2.1⟩

theorem finishUpsert_saved_found (db : DB) (now : Int) (uid : Nat) (req : RSVPRequest)
    (st : RStatus) (ev : Event) (r : RSVP) (t : String) (d : Int) (loc : String)
    (h : (finishUpsert db now uid req st ev).2 = PostResult.saved r t d loc) :
    findExistingRSVP (finishUpsert db now uid req st ev).1 uid req.eventId = some r := by
  have hsnd := upsertRSVP_snd db now uid req.eventId st (normNotes req.notes)
  rcases hup : upsertRSVP db now uid req.eventId st (normNotes req.notes) with ⟨db', o⟩
  rw [hup] at hsnd
  unfold finishUpsert at h ⊢
  rw [hup] at h ⊢
  cases o with
  | none =>
    simp only [] at h
    cases h
  | some r' =>
    simp only [] at h hsnd ⊢
    injection h with h1 h2 h3 h4
    rw [← h1]
    exact hsnd.symm

theorem postRSVP_saved_inv (db : DB) (now : Int) (uid : Nat) (req : RSVPRequest)
    (r : RSVP) (t : String) (d : Int) (loc : String)
    (h : (postRSVP db now uid req).2 = PostResult.saved r t d loc) :
    ¬(req.eventId < 1 ∨ validNotes req.notes = false) ∧
    findExistingRSVP (postRSVP db now uid req).1 uid req.eventId = some r := by
  unfold postRSVP at h ⊢
  cases hps : parseStatus req.status with
  | none =>
    rw [hps] at h
    simp at h
  | some st =>
    rw [hps] at h
    simp only [] at h ⊢
    by_cases hval : req.eventId < 1 ∨ validNotes req.notes = false
    · rw [if_pos hval] at h
      simp at h
    · rw [if_neg hval] at h ⊢
      refine ⟨hval, ?_⟩
      cases hfe : findActiveEvent db req.eventId with
      | none =>
        rw [hfe] at h
        simp at h
      | some ev =>
        rw [hfe] at h
        simp only [] at h ⊢
        by_cases hpast : ev.eventDate ≤ now
        · rw [if_pos hpast] at h
          simp at h
        · rw [if_neg hpast] at h ⊢
          by_cases hcond : st = RStatus.attending ∧ isTruthy ev.maxAttendees = true
          · rw [if_pos hcond] at h ⊢
            by_cases hfull : ev.maxAttendees.getD 0 ≤ attendingCount db req.eventId
            · rw [if_pos hfull] at h
              simp at h
            · rw [if_neg hfull] at h ⊢
              exact finishUpsert_saved_found db now uid req st ev r t d loc h
          · rw [if_neg hcond] at h ⊢
            exact finishUpsert_saved_found db now uid req st ev r t d loc h

/-- C2 (amended): after a successful upsert, re-submitting the identical
well-formed request leaves exactly one RSVP row for (identity, event) with
the latest status, note and timestamp, and the second request succeeds —
provided the second request is not rejected by the capacity check (it
cannot be when the status is not `attending`, when the event declares no
truthy capacity, or when the stored attending count, which includes the
requester's own row, is still below the cap). -/
theorem rsvp_upsert_idempotent (db : DB) (now1 now2 : Int) (uid : Nat)
    (req : RSVPRequest) (st : RStatus) (ev : Event) (r1 : RSVP) (t : String)
    (d : Int) (loc : String)
    (huniq : rsvpKeyUnique db.rsvps)
    (hst : parseStatus req.status = some st)
    (hev : findActiveEvent db req.eventId = some ev)
    (h1 : (postRSVP db now1 uid req).2 = PostResult.saved r1 t d loc)
    (hfut2 : now2 < ev.eventDate)
    (hcap2 : ¬(st = RStatus.attending ∧ isTruthy ev.maxAttendees = true) ∨
      attendingCount (postRSVP db now1 uid req).1 req.eventId
        < ev.maxAttendees.getD 0) :
    ∃ r2, (postRSVP (postRSVP db now1 uid req).1 now2 uid req).2
        = PostResult.saved r2 ev.title ev.eventDate ev.location ∧
      (postRSVP (postRSVP db now1 uid req).1 now2 uid req).1.rsvps.filter
        (keyP uid req.eventId) = [r2] ∧
      r2.userId = uid ∧ r2.eventId = req.eventId ∧
      r2.status = st ∧ r2.notes = normNotes req.notes ∧ r2.rsvpDate = now2 := by
  obtain ⟨hval, hfound⟩ := postRSVP_saved_inv db now1 uid req r1 t d loc h1
  have huniq1 : rsvpKeyUnique (postRSVP db now1 uid req).1.rsvps :=
    rsvpKeyUnique_postRSVP db now1 uid req huniq
  have hev1 : findActiveEvent (postRSVP db now1 uid req).1 req.eventId = some ev := by
    unfold findActiveEvent at hev ⊢
    rw [postRSVP_events]
    exact hev
  set db1 := (postRSVP db now1 uid req).1 with hdb1
  have hpost2 : postRSVP db1 now2 uid req = finishUpsert db1 now2 uid req st ev := by
    unfold postRSVP
    rw [hst]
    simp only []
    rw [if_neg hval, hev1]
    simp only []
    rw [if_neg (by omega : ¬ ev.eventDate ≤ now2)]
    rcases hcap2 with hc | hc
    · rw [if_neg hc]
    · by_cases hcond : st = RStatus.attending ∧ isTruthy ev.maxAttendees = true
      · rw [if_pos hcond, if_neg (by omega : ¬ ev.maxAttendees.getD 0
          ≤ attendingCount db1 req.eventId)]
      · rw [if_neg hcond]
  have hchar := upsertRSVP_of_found db1 now2 uid req.eventId
    st (normNotes req.notes) r1 hfound
  have hkey1 : keyP uid req.eventId r1 = true := List.find?_some hfound
  have hkfields := (keyP_iff uid req.eventId r1).mp hkey1
  refine ⟨updateRow uid req.eventId st (normNotes req.notes) now2 r1,
    ?_, ?_, ?_, ?_, ?_, ?_, ?_⟩
  · rw [hpost2]
    unfold finishUpsert
    rw [hchar]
  · rw [hpost2, finishUpsert_fst, hchar]
    simp only []
    rw [List.filter_map, keyP_comp_updateRow,
      filter_eq_singleton_of_uniq uid req.eventId _ r1 huniq1 hfound]
    rfl
  · rw [updateRow_userId]
    exact hkfields.1
  · rw [updateRow_eventId]
    exact hkfields.2
  · unfold updateRow
    rw [if_pos hkey1]
  · unfold updateRow
    rw [if_pos hkey1]
  · unfold updateRow
    rw [if_pos hkey1]

/-- Witness for the amended C2: the same `maybe` request submitted twice
for an uncapped event; the second submission succeeds and the single
stored row carries the second timestamp. -/
theorem rsvp_upsert_idempotent_witness :
    ∃ r2, (postRSVP (postRSVP w3DB 1 1 wReqM).1 2 1 wReqM).2
        = PostResult.saved r2 w3Event.title w3Event.eventDate w3Event.location ∧
      (postRSVP (postRSVP w3DB 1 1 wReqM).1 2 1 wReqM).1.rsvps.filter
        (keyP 1 wReqM.eventId) = [r2] ∧
      r2.userId = 1 ∧ r2.eventId = wReqM.eventId ∧
      r2.status = RStatus.maybe ∧ r2.notes = normNotes wReqM.notes ∧ r2.rsvpDate = 2 :=
  rsvp_upsert_idempotent w3DB 1 2 1 wReqM RStatus.maybe w3Event
    (RSVP.mk 1 1 1 RStatus.maybe none 1) "T" 100 "L"
    (by simp [rsvpKeyUnique, w3DB]) rfl rfl rfl (by decide) (Or.inl (by decide))
